import Mathlib

/-!
Verification of the tattle package (tattle.go).

A Tattler holds an optional pointer `talep` to a lazily allocated `tale`
record.  We model the Go heap of `tale` records as a list (`Heap`); a Go
pointer `*tale` becomes `Option Nat`, an index into that list.  `new(tale)`
appends at the end of the list and returns the old length, so distinct
allocations get distinct addresses, which makes Import's deep copy and the
independence of the two Holders provable facts rather than artifacts of a
pure embedding.

Go `error` interface values are modelled by `Option GoError`; a `GoError`
carries an identity tag (Go compares interface values, so two errors built
by separate fmt.Errorf calls differ even with equal text) and the message
returned by Error().  `runtime.Frame` becomes the `Frame` triple used by
String().  The global `callFrames` and the ambient call stack at a latch
site are passed as explicit arguments (`cf`, `stk`): `runtime.Callers(b+2,
pc)` reports the frames above the Tattler internals, so `stk` is that
caller-visible stack and the skip parameter `b` is absorbed by it.
fmt.Sprintf / fmt.Errorf formatting is host plumbing; operations receive
the already-formatted string or error.
-/

/-- Model of a Go `error` interface value that is non-nil: `id` is the
interface identity (pointer/dynamic value), `msg` the text `Error()`
returns.  A possibly-nil Go error is `Option GoError`. -/
structure GoError where
  id : Nat
  msg : String
deriving DecidableEq, Repr

/-- Model of `runtime.Frame`: the three components used by `String()`. -/
structure Frame where
  file : String
  line : Nat
  function : String
deriving DecidableEq, Repr

/-- tattle.go 85-90: a tale exists only for Tattlers that have latched an
error. -/
structure tale where
  latched : Option GoError
  frames : List Frame
  logged : Bool
  missed : Nat
deriving DecidableEq, Repr

/-- The Go heap of allocated `tale` records; an address is an index. -/
abbrev Heap := List tale

/-- Dereference a tale pointer: `h[p]`, `none` when dangling (never happens
for pointers produced by the package). -/
def heapGet : Heap → Nat → Option tale
  | [], _ => none
  | t :: _, 0 => some t
  | _ :: h, p + 1 => heapGet h p

/-- Store through a tale pointer (models `tat.talep.missed++` etc.). -/
def heapSet : Heap → Nat → tale → Heap
  | [], _, _ => []
  | _ :: h, 0, u => u :: h
  | t :: h, p + 1, u => t :: heapSet h p u

/-- tattle.go 80-82: a Tattler is a single optional pointer to a tale. -/
structure Tattler where
  talep : Option Nat
deriving DecidableEq, Repr

/-- A Tattler in its initial, Clean state (`Tattler{}`). -/
def cleanTattler : Tattler := { talep := none }

/-- tattle.go 93: `var callFrames = uint32(3)`, the initial value of the
process-wide frame-capture count. -/
def callFramesInit : Nat := 3

/-- tattle.go 102-107: SetFrames stops the requested count to [0,100].  The
argument is a Go uint32; the result is the value stored in the global
`callFrames`. -/
def SetFrames (f : Nat) : Nat :=
  if f > 100 then 100 else f

/-- tattle.go 120-131: the frame-capture block of fullLatch.  `cf` is the
current value of `callFrames`, `stk` the caller-visible stack that
`runtime.Callers(b+2, pc)` decodes.  When `cf = 0` the block is skipped.
Otherwise `pc` holds the first `min cf (stk.length)` entries and the
`frames.Next()` loop appends each decoded frame; on an empty `pc` the loop
still appends the single zero Frame that `Next` yields. -/
def captureFrames (cf : Nat) (stk : List Frame) : List Frame :=
  if cf = 0 then []
  else
    match stk.take cf with
    | [] => [{ file := "", line := 0, function := "" }]
    | f :: fs => f :: fs

/-- tattle.go 112-139: fullLatch.  Returns the updated heap, the updated
Tattler and the Bool result `tat.talep != nil`. -/
def Tattler.fullLatch (cf : Nat) (stk : List Frame) (h : Heap) (tat : Tattler)
    (e : Option GoError) : Heap × Tattler × Bool :=
  match e with
  | none => (h, tat, tat.talep.isSome)
  | some err =>
    match tat.talep with
    | none =>
      let tp : tale :=
        { latched := some err, frames := captureFrames cf stk
          logged := false, missed := 0 }
      (h ++ [tp], { talep := some h.length }, true)
    | some p =>
      match heapGet h p with
      | none => (h, tat, true)
      | some t =>
        if some err ≠ t.latched then
          (heapSet h p { t with missed := t.missed + 1 }, tat, true)
        else (h, tat, true)

/-- tattle.go 160-165: Latch.  Note the source returns `false` whenever
`e == nil`, even for an already-latched Tattler. -/
def Tattler.Latch (cf : Nat) (stk : List Frame) (h : Heap) (tat : Tattler)
    (e : Option GoError) : Heap × Tattler × Bool :=
  match e with
  | some _ => Tattler.fullLatch cf stk h tat e
  | none => (h, tat, false)

/-- tattle.go 182-187: Le returns the latched error, nil if none. -/
def Tattler.Le (h : Heap) (tat : Tattler) : Option GoError :=
  match tat.talep with
  | none => none
  | some p =>
    match heapGet h p with
    | none => none
    | some t => t.latched

/-- tattle.go 174-178: Latchf.  `newErr` is the error freshly created by
`fmt.Errorf(s, v...)`; the third component is the returned `tat.Le()`. -/
def Tattler.Latchf (cf : Nat) (stk : List Frame) (h : Heap) (tat : Tattler)
    (newErr : GoError) : Heap × Tattler × Option GoError :=
  let r := Tattler.fullLatch cf stk h tat (some newErr)
  (r.1, r.2.1, Tattler.Le r.1 r.2.1)

/-- tattle.go 145-151: Import.  `tat.talep = new(tale); *tat.talep =
*itp.talep` allocates a fresh tale and copies the pointee by value. -/
def Tattler.Import (h : Heap) (tat : Tattler) (itp : Tattler) :
    Heap × Tattler × Bool :=
  match itp.talep, tat.talep with
  | some q, none =>
    let t := (heapGet h q).getD { latched := none, frames := [], logged := false, missed := 0 }
    (h ++ [t], { talep := some h.length }, true)
  | _, _ => (h, tat, tat.talep.isSome)

/-- tattle.go 190: Led returns true if an error has been latched. -/
def Tattler.Led (tat : Tattler) : Bool := tat.talep.isSome

/-- tattle.go 250: Ok returns true if no error has been latched. -/
def Tattler.Ok (tat : Tattler) : Bool := tat.talep.isNone

/-- tattle.go 253-255: Reset sets `tat.talep = nil`; the heap is untouched. -/
def Tattler.Reset (tat : Tattler) : Tattler := { tat with talep := none }

/-- Abbreviation for the builtin string type, needed in signatures inside
the Tattler namespace where the bare name resolves to Tattler.String. -/
abbrev Str := String

/-- Go `filepath.Base` (unix): empty path gives ".", trailing slashes are
stripped, the last path element is returned, all-slash paths give "/". -/
def baseName (path : String) : String :=
  if path = "" then "."
  else
    let cs := (path.toList.reverse).dropWhile (fun c => c = '/')
    let nm := cs.takeWhile (fun c => c ≠ '/')
    if nm = [] then "/" else String.mk nm.reverse

/-- One rendered frame line of String(): label, base filename, line,
function. -/
def frameLine (label : String) (f : Frame) : String :=
  label ++ baseName f.file ++ ":" ++ toString f.line ++ " in " ++ f.function ++ "\n"

/-- tattle.go 259-280: String.  The strings.Builder is the accumulated
string; each Fprintf appends.  Returns "" when `t == nil` or
`t.latched == nil`. -/
def Tattler.String (h : Heap) (tat : Tattler) : String :=
  match tat.talep with
  | none => ""
  | some p =>
    match heapGet h p with
    | none => ""
    | some t =>
      match t.latched with
      | none => ""
      | some err =>
        let sb := err.msg ++ "\n"
        let sb :=
          match t.frames with
          | [] => sb
          | f0 :: rest =>
            rest.foldl (fun acc f => acc ++ frameLine " Called From: " f)
              (sb ++ frameLine " Latched at:  " f0)
        if t.missed ≠ 0 then sb ++ " " ++ toString t.missed ++ " post-latch errors\n"
        else sb

/-- tattle.go 243-247: fullLogf.  `pfx` is the already-formatted
`fmt.Sprintf(s, v...)` prefix; the emitted log line is the second
component.  Called only with `tat.talep != nil`. -/
def Tattler.fullLogf (h : Heap) (tat : Tattler) (pfx : Str) :
    Heap × Option Str :=
  let out := pfx ++ Tattler.String h tat
  match tat.talep with
  | none => (h, some out)
  | some p =>
    match heapGet h p with
    | none => (h, some out)
    | some t => (heapSet h p { t with logged := true }, some out)

/-- tattle.go 236-241: Logf.  No-op (nothing emitted) unless latched and
not yet logged. -/
def Tattler.Logf (h : Heap) (tat : Tattler) (pfx : Str) :
    Heap × Option Str :=
  match tat.talep with
  | none => (h, none)
  | some p =>
    match heapGet h p with
    | none => (h, none)
    | some t => if t.logged then (h, none) else Tattler.fullLogf h tat pfx

/-- tattle.go 211-213: Log is Logf with an empty prefix. -/
def Tattler.Log (h : Heap) (tat : Tattler) : Heap × Option Str :=
  Tattler.Logf h tat ""

/-- One Latch call of a sequence: the frame-capture count and caller stack
in effect at that call, and the offered error. -/
structure Offer where
  cf : Nat
  stk : List Frame
  e : Option GoError
deriving Repr

/-- Apply a sequence of Latch calls. -/
def runLatches (h : Heap) (tat : Tattler) : List Offer → Heap × Tattler
  | [] => (h, tat)
  | o :: os =>
    let r := Tattler.Latch o.cf o.stk h tat o.e
    runLatches r.1 r.2.1 os

/-- The first non-null error of a sequence of offers. -/
def firstOffered : List Offer → Option GoError
  | [] => none
  | o :: os =>
    match o.e with
    | some err => some err
    | none => firstOffered os

/-- Apply a sequence of Logf calls (one formatted prefix each), collecting
the emitted log lines. -/
def runLogs (h : Heap) (tat : Tattler) : List String → Heap × List String
  | [] => (h, [])
  | s :: ss =>
    let r := Tattler.Logf h tat s
    let rest := runLogs r.1 tat ss
    (rest.1, (match r.2 with | some out => [out] | none => []) ++ rest.2)

/-! ## Heap lemmas -/

theorem heapGet_some_lt {h : Heap} {p : Nat} {t : tale}
    (hg : heapGet h p = some t) : p < h.length := by
  induction h generalizing p with
  | nil => simp [heapGet] at hg
  | cons a as ih =>
    cases p with
    | zero => simp
    | succ q =>
      have := ih (p := q) (by simpa [heapGet] using hg)
      simpa using Nat.succ_lt_succ this

theorem heapGet_append_left {h : Heap} {p : Nat} {t : tale}
    (hg : heapGet h p = some t) (h2 : Heap) : heapGet (h ++ h2) p = some t := by
  induction h generalizing p with
  | nil => simp [heapGet] at hg
  | cons a as ih =>
    cases p with
    | zero => simpa [heapGet] using hg
    | succ q => simpa [heapGet] using ih (by simpa [heapGet] using hg)

theorem heapGet_append_length (h : Heap) (t : tale) :
    heapGet (h ++ [t]) h.length = some t := by
  induction h with
  | nil => rfl
  | cons a as ih => simpa [heapGet] using ih

theorem heapGet_heapSet_self {h : Heap} {p : Nat} {t : tale}
    (hg : heapGet h p = some t) (u : tale) :
    heapGet (heapSet h p u) p = some u := by
  induction h generalizing p with
  | nil => simp [heapGet] at hg
  | cons a as ih =>
    cases p with
    | zero => simp [heapGet, heapSet]
    | succ q =>
      simpa [heapGet, heapSet] using ih (by simpa [heapGet] using hg)

theorem heapGet_heapSet_ne {p q : Nat} (hne : p ≠ q) (h : Heap) (u : tale) :
    heapGet (heapSet h p u) q = heapGet h q := by
  induction h generalizing p q with
  | nil => simp [heapSet]
  | cons a as ih =>
    cases p with
    | zero =>
      cases q with
      | zero => exact absurd rfl hne
      | succ r => simp [heapGet, heapSet]
    | succ pp =>
      cases q with
      | zero => simp [heapGet, heapSet]
      | succ r => simpa [heapGet, heapSet] using ih (fun hc => hne (by simp [hc]))

/-! ## Latched-state stability -/

/-- The Tattler points at a live tale whose latched error is `err`. -/
def LatchedAt (h : Heap) (tat : Tattler) (err : GoError) : Prop :=
  ∃ p t, tat.talep = some p ∧ heapGet h p = some t ∧ t.latched = some err

theorem le_of_latchedAt {h : Heap} {tat : Tattler} {err : GoError}
    (hl : LatchedAt h tat err) : Tattler.Le h tat = some err := by
  obtain ⟨p, t, hp, hg, he⟩ := hl
  simp [Tattler.Le, hp, hg, he]

theorem led_of_latchedAt {h : Heap} {tat : Tattler} {err : GoError}
    (hl : LatchedAt h tat err) : Tattler.Led tat = true := by
  obtain ⟨p, t, hp, hg, he⟩ := hl
  simp [Tattler.Led, hp]

theorem latch_preserves_latchedAt {h : Heap} {tat : Tattler} {err : GoError}
    (hl : LatchedAt h tat err) (cf : Nat) (stk : List Frame) (e : Option GoError) :
    (Tattler.Latch cf stk h tat e).2.1 = tat ∧
      LatchedAt (Tattler.Latch cf stk h tat e).1 tat err := by
  obtain ⟨p, t, hp, hg, he⟩ := hl
  cases e with
  | none => exact ⟨rfl, p, t, hp, hg, he⟩
  | some e2 =>
    simp only [Tattler.Latch, Tattler.fullLatch, hp, hg]
    by_cases hne : some e2 ≠ t.latched
    · simp only [if_pos hne]
      exact ⟨trivial, p, { t with missed := t.missed + 1 },
        hp, heapGet_heapSet_self hg _, he⟩
    · simp only [if_neg hne]
      exact ⟨trivial, p, t, hp, hg, he⟩

theorem runLatches_latchedAt {err : GoError} :
    ∀ (os : List Offer) (h : Heap) (tat : Tattler), LatchedAt h tat err →
      (runLatches h tat os).2 = tat ∧ LatchedAt (runLatches h tat os).1 tat err := by
  intro os
  induction os with
  | nil => intro h tat hl; exact ⟨rfl, hl⟩
  | cons o os ih =>
    intro h tat hl
    have step := latch_preserves_latchedAt hl o.cf o.stk o.e
    have : runLatches h tat (o :: os)
        = runLatches (Tattler.Latch o.cf o.stk h tat o.e).1 tat os := by
      rw [runLatches]
      rw [step.1]
    rw [this]
    exact ih _ tat step.2

/-- A first accepted error puts the Tattler exactly into the freshly
allocated latched state. -/
theorem latch_clean_some (cf : Nat) (stk : List Frame) (h : Heap) (tat : Tattler)
    (err : GoError) (hc : tat.talep = none) :
    Tattler.Latch cf stk h tat (some err)
      = (h ++ [{ latched := some err, frames := captureFrames cf stk
                 logged := false, missed := 0 }],
         { talep := some h.length }, true) := by
  simp [Tattler.Latch, Tattler.fullLatch, hc]

/-! ## Claims -/

/-- C1: for every sequence of Latch calls applied to a Holder that starts
Clean, the error Le() returns after the sequence equals the first non-null
error offered in the sequence (null offers and later errors never replace
it), and Led() returns false if and only if no non-null error was ever
offered. -/
theorem C1_first_error_wins (h0 : Heap) (os : List Offer) :
    Tattler.Le (runLatches h0 cleanTattler os).1 (runLatches h0 cleanTattler os).2
      = firstOffered os
    ∧ (Tattler.Led (runLatches h0 cleanTattler os).2 = false
        ↔ firstOffered os = none) := by
  induction os generalizing h0 with
  | nil => simp [runLatches, firstOffered, Tattler.Le, Tattler.Led, cleanTattler]
  | cons o os ih =>
    cases ho : o.e with
    | none =>
      have hrun : runLatches h0 cleanTattler (o :: os)
          = runLatches h0 cleanTattler os := by
        simp only [runLatches, Tattler.Latch, ho]
      rw [hrun]
      simpa [firstOffered, ho] using ih h0
    | some err =>
      have hrun : runLatches h0 cleanTattler (o :: os)
          = runLatches
              (h0 ++ [{ latched := some err, frames := captureFrames o.cf o.stk
                        logged := false, missed := 0 }])
              { talep := some h0.length } os := by
        simp only [runLatches, ho, latch_clean_some o.cf o.stk h0 cleanTattler err rfl]
      have hl : LatchedAt
          (h0 ++ [{ latched := some err, frames := captureFrames o.cf o.stk
                    logged := false, missed := 0 }])
          { talep := some h0.length } err :=
        ⟨h0.length, _, rfl, heapGet_append_length h0 _, rfl⟩
      have hfin := runLatches_latchedAt os _ _ hl
      have hfo : firstOffered (o :: os) = some err := by simp [firstOffered, ho]
      rw [hrun, hfin.1, hfo]
      refine ⟨le_of_latchedAt hfin.2, ?_⟩
      simp [led_of_latchedAt hfin.2]

/-- C2, behavior of the source at the failing input: after an error has
been latched, Latch(nil) returns false (and leaves the state unchanged),
although the Holder is Latched.  The claim, Latch's own documentation
(tattle.go 159) and TestBasic in tattle_test.go expect true. -/
theorem C2_latch_nil_returns_false :
    Tattler.Led (Tattler.Latch 3 [⟨"a/f.go", 7, "main.f"⟩] [] cleanTattler
        (some ⟨1, "boom"⟩)).2.1 = true
    ∧ (Tattler.Latch 3 [⟨"a/f.go", 9, "main.g"⟩]
        (Tattler.Latch 3 [⟨"a/f.go", 7, "main.f"⟩] [] cleanTattler
          (some ⟨1, "boom"⟩)).1
        (Tattler.Latch 3 [⟨"a/f.go", 7, "main.f"⟩] [] cleanTattler
          (some ⟨1, "boom"⟩)).2.1
        none).2.2 = false
    ∧ (Tattler.Latch 3 [⟨"a/f.go", 9, "main.g"⟩]
        (Tattler.Latch 3 [⟨"a/f.go", 7, "main.f"⟩] [] cleanTattler
          (some ⟨1, "boom"⟩)).1
        (Tattler.Latch 3 [⟨"a/f.go", 7, "main.f"⟩] [] cleanTattler
          (some ⟨1, "boom"⟩)).2.1
        none).2.1
      = (Tattler.Latch 3 [⟨"a/f.go", 7, "main.f"⟩] [] cleanTattler
          (some ⟨1, "boom"⟩)).2.1 := by
  exact ⟨rfl, rfl, rfl⟩

/-- Offering a run of non-null errors, each different from the latched one,
to a latched Tattler bumps missed by the length of the run and changes
nothing else. -/
theorem runLatches_missed {err : GoError} (cf : Nat) (stk : List Frame) :
    ∀ (es : List GoError) (h : Heap) (p : Nat) (t : tale) (tat : Tattler),
      tat.talep = some p → heapGet h p = some t → t.latched = some err →
      (∀ e2 ∈ es, e2 ≠ err) →
      (runLatches h tat (es.map fun e2 => ⟨cf, stk, some e2⟩)).2 = tat ∧
      heapGet (runLatches h tat (es.map fun e2 => ⟨cf, stk, some e2⟩)).1 p
        = some { t with missed := t.missed + es.length } := by
  intro es
  induction es with
  | nil =>
    intro h p t tat hp hg he hall
    exact ⟨rfl, hg⟩
  | cons e2 es ih =>
    intro h p t tat hp hg he hall
    have hne : some e2 ≠ t.latched := by
      rw [he]
      simpa using hall e2 (List.mem_cons_self e2 es)
    have hstep : Tattler.Latch cf stk h tat (some e2)
        = (heapSet h p { t with missed := t.missed + 1 }, tat, true) := by
      simp only [Tattler.Latch, Tattler.fullLatch, hp, hg, if_pos hne]
    have hrun : runLatches h tat ((e2 :: es).map fun x => ⟨cf, stk, some x⟩)
        = runLatches (heapSet h p { t with missed := t.missed + 1 }) tat
            (es.map fun x => ⟨cf, stk, some x⟩) := by
      simp only [List.map, runLatches, hstep]
    rw [hrun]
    have hg2 : heapGet (heapSet h p { t with missed := t.missed + 1 }) p
        = some { t with missed := t.missed + 1 } := heapGet_heapSet_self hg _
    have hrec := ih (heapSet h p { t with missed := t.missed + 1 }) p
        { t with missed := t.missed + 1 } tat hp hg2 he
        (fun x hx => hall x (List.mem_cons_of_mem _ hx))
    refine ⟨hrec.1, ?_⟩
    rw [hrec.2]
    have harith : t.missed + 1 + es.length = t.missed + (es.length + 1) := by omega
    exact congrArg (fun n => some ({ t with missed := n } : tale)) harith

/-- C3: offering the error an already-latched Holder returns from Le()
leaves everything unchanged; offering a non-null error different from the
latched one increments missed by exactly 1; offering N distinct non-null
errors, each different from the latched error, to a freshly latched Holder
brings missed to exactly N. -/
theorem C3_missed_counting (cf : Nat) (stk : List Frame) (h : Heap)
    (tat : Tattler) (p : Nat) (t : tale) (err : GoError)
    (hp : tat.talep = some p) (hg : heapGet h p = some t)
    (he : t.latched = some err) :
    Tattler.Latch cf stk h tat (Tattler.Le h tat) = (h, tat, true)
    ∧ (∀ e2 : GoError, e2 ≠ err →
        Tattler.Latch cf stk h tat (some e2)
          = (heapSet h p { t with missed := t.missed + 1 }, tat, true))
    ∧ (∀ es : List GoError, es.Nodup → (∀ e2 ∈ es, e2 ≠ err) → t.missed = 0 →
        (runLatches h tat (es.map fun e2 => ⟨cf, stk, some e2⟩)).2 = tat
        ∧ heapGet (runLatches h tat (es.map fun e2 => ⟨cf, stk, some e2⟩)).1 p
            = some { t with missed := es.length }) := by
  have hle : Tattler.Le h tat = some err := by simp [Tattler.Le, hp, hg, he]
  refine ⟨?_, ?_, ?_⟩
  · rw [hle]
    have hne : ¬ (some err ≠ t.latched) := by simp [he]
    simp only [Tattler.Latch, Tattler.fullLatch, hp, hg, if_neg hne]
  · intro e2 hne2
    have hne : some e2 ≠ t.latched := by rw [he]; simpa using hne2
    simp only [Tattler.Latch, Tattler.fullLatch, hp, hg, if_pos hne]
  · intro es hnd hall hm0
    have hrec := runLatches_missed cf stk es h p t tat hp hg he hall
    refine ⟨hrec.1, ?_⟩
    rw [hrec.2]
    have harith : t.missed + es.length = es.length := by omega
    exact congrArg (fun n => some ({ t with missed := n } : tale)) harith

/-- Witness for C3 at a concrete latched Holder with two post-latch
errors. -/
theorem C3_missed_counting_witness :
    (runLatches [⟨some ⟨0, "a"⟩, [], false, 0⟩] ⟨some 0⟩
        ([⟨1, "b"⟩, ⟨2, "c"⟩].map fun e2 => ⟨3, [], some e2⟩)).2 = ⟨some 0⟩
    ∧ heapGet (runLatches [⟨some ⟨0, "a"⟩, [], false, 0⟩] ⟨some 0⟩
        ([⟨1, "b"⟩, ⟨2, "c"⟩].map fun e2 => ⟨3, [], some e2⟩)).1 0
      = some ⟨some ⟨0, "a"⟩, [], false, 2⟩ :=
  (C3_missed_counting 3 [] [⟨some ⟨0, "a"⟩, [], false, 0⟩] ⟨some 0⟩ 0
      ⟨some ⟨0, "a"⟩, [], false, 0⟩ ⟨0, "a"⟩ rfl rfl rfl).2.2
    [⟨1, "b"⟩, ⟨2, "c"⟩] (by decide) (by decide) rfl

/-- C4: Latchf feeds the freshly formatted error through the same path as
Latch and returns the Holder current latched error afterwards; on an
already-latched Holder the previously latched error is returned and never
overwritten. -/
theorem C4_latchf_no_overwrite (cf : Nat) (stk : List Frame) (h : Heap)
    (tat : Tattler) (newErr : GoError) (p : Nat) (t : tale) (old : GoError)
    (hp : tat.talep = some p) (hg : heapGet h p = some t)
    (he : t.latched = some old) :
    (∀ (h2 : Heap) (tat2 : Tattler) (ne2 : GoError),
        (Tattler.Latchf cf stk h2 tat2 ne2).1
            = (Tattler.Latch cf stk h2 tat2 (some ne2)).1
        ∧ (Tattler.Latchf cf stk h2 tat2 ne2).2.1
            = (Tattler.Latch cf stk h2 tat2 (some ne2)).2.1
        ∧ (Tattler.Latchf cf stk h2 tat2 ne2).2.2
            = Tattler.Le (Tattler.Latchf cf stk h2 tat2 ne2).1
                (Tattler.Latchf cf stk h2 tat2 ne2).2.1)
    ∧ (Tattler.Latchf cf stk h tat newErr).2.2 = some old
    ∧ ∃ t2, heapGet (Tattler.Latchf cf stk h tat newErr).1 p = some t2
        ∧ t2.latched = some old := by
  have hle : Tattler.Le h tat = some old := by simp [Tattler.Le, hp, hg, he]
  refine ⟨fun h2 tat2 ne2 => ⟨rfl, rfl, rfl⟩, ?_⟩
  by_cases hne : some newErr ≠ t.latched
  · have hr : Tattler.Latchf cf stk h tat newErr
        = (heapSet h p { t with missed := t.missed + 1 }, tat,
           Tattler.Le (heapSet h p { t with missed := t.missed + 1 }) tat) := by
      simp only [Tattler.Latchf, Tattler.fullLatch, hp, hg, if_pos hne]
    have hle2 : Tattler.Le (heapSet h p { t with missed := t.missed + 1 }) tat
        = some old := by
      simp [Tattler.Le, hp, heapGet_heapSet_self hg, he]
    rw [hr]
    exact ⟨hle2, { t with missed := t.missed + 1 },
      heapGet_heapSet_self hg _, he⟩
  · have hr : Tattler.Latchf cf stk h tat newErr = (h, tat, Tattler.Le h tat) := by
      simp only [Tattler.Latchf, Tattler.fullLatch, hp, hg, if_neg hne]
    rw [hr]
    exact ⟨hle, t, hg, he⟩

/-- Witness for C4 at a concrete already-latched Holder. -/
theorem C4_latchf_no_overwrite_witness :
    (Tattler.Latchf 3 [] [⟨some ⟨0, "a"⟩, [], false, 0⟩] ⟨some 0⟩ ⟨1, "b"⟩).2.2
      = some ⟨0, "a"⟩
    ∧ ∃ t2,
        heapGet (Tattler.Latchf 3 [] [⟨some ⟨0, "a"⟩, [], false, 0⟩] ⟨some 0⟩
          ⟨1, "b"⟩).1 0 = some t2
        ∧ t2.latched = some ⟨0, "a"⟩ :=
  (C4_latchf_no_overwrite 3 [] [⟨some ⟨0, "a"⟩, [], false, 0⟩] ⟨some 0⟩ ⟨1, "b"⟩
    0 ⟨some ⟨0, "a"⟩, [], false, 0⟩ ⟨0, "a"⟩ rfl rfl rfl).2

/-- String() only depends on the heap through the cell the Tattler points
at. -/
theorem string_congr {h1 h2 : Heap} {q : Nat}
    (hq : heapGet h1 q = heapGet h2 q) :
    Tattler.String h1 { talep := some q } = Tattler.String h2 { talep := some q } := by
  simp only [Tattler.String, hq]

/-- A Latch on a latched Tattler only writes the cell that Tattler points
at. -/
theorem latch_preserves_other_cell {h : Heap} {tat : Tattler} {p : Nat}
    {t : tale} (hp : tat.talep = some p) (hg : heapGet h p = some t) {q : Nat}
    (hne : p ≠ q) (cf : Nat) (stk : List Frame) (e : Option GoError) :
    heapGet (Tattler.Latch cf stk h tat e).1 q = heapGet h q := by
  cases e with
  | none => rfl
  | some e2 =>
    simp only [Tattler.Latch, Tattler.fullLatch, hp, hg]
    by_cases hc : some e2 ≠ t.latched
    · simp only [if_pos hc]
      exact heapGet_heapSet_ne hne h _
    · simp only [if_neg hc]

/-- A Logf only writes the cell its Tattler points at. -/
theorem logf_preserves_other_cell {h : Heap} {tat : Tattler} {p : Nat}
    {t : tale} (hp : tat.talep = some p) (hg : heapGet h p = some t) {q : Nat}
    (hne : p ≠ q) (s : Str) :
    heapGet (Tattler.Logf h tat s).1 q = heapGet h q := by
  simp only [Tattler.Logf, hp, hg]
  cases hl : t.logged with
  | true => simp
  | false =>
    simp only [Bool.false_eq_true, if_false, Tattler.fullLogf, hp, hg]
    exact heapGet_heapSet_ne hne h _

/-- C5: Import of a Latched other into a Clean self copies the entire
Detail, making self Latched with a String rendering identical to the
other Holder; Import is a no-op when self is already Latched or when
other is Clean; in every case it returns whether self is Latched after
the call. -/
theorem C5_import (h : Heap) (tat itp : Tattler) (q : Nat) (it : tale)
    (hq : itp.talep = some q) (hv : heapGet h q = some it) :
    (tat.talep = none →
        Tattler.Import h tat itp = (h ++ [it], { talep := some h.length }, true)
        ∧ Tattler.Led (Tattler.Import h tat itp).2.1 = true
        ∧ Tattler.String (Tattler.Import h tat itp).1 (Tattler.Import h tat itp).2.1
            = Tattler.String (Tattler.Import h tat itp).1 itp)
    ∧ (∀ p, tat.talep = some p → Tattler.Import h tat itp = (h, tat, true))
    ∧ (∀ (h3 : Heap) (tat3 itp3 : Tattler), itp3.talep = none →
        Tattler.Import h3 tat3 itp3 = (h3, tat3, Tattler.Led tat3))
    ∧ (∀ (h3 : Heap) (tat3 itp3 : Tattler),
        (Tattler.Import h3 tat3 itp3).2.2
          = Tattler.Led (Tattler.Import h3 tat3 itp3).2.1) := by
  refine ⟨?_, ?_, ?_, ?_⟩
  · intro hc
    have himp : Tattler.Import h tat itp
        = (h ++ [it], { talep := some h.length }, true) := by
      simp [Tattler.Import, hq, hc, hv]
    rw [himp]
    have k1 : heapGet (h ++ [it]) h.length = some it := heapGet_append_length h it
    have k2 : heapGet (h ++ [it]) q = some it := heapGet_append_left hv _
    refine ⟨rfl, rfl, ?_⟩
    simp only [Tattler.String, k1, hq, k2]
  · intro p hp
    cases hit : itp.talep <;> simp [Tattler.Import, hp, hit]
  · intro h3 tat3 itp3 ho
    simp [Tattler.Import, ho, Tattler.Led]
  · intro h3 tat3 itp3
    cases hit : itp3.talep <;> cases htt : tat3.talep <;>
      simp [Tattler.Import, Tattler.Led, hit, htt]

/-- Witness for C5 at a concrete Latched other and Clean self. -/
theorem C5_import_witness :
    Tattler.Import [⟨some ⟨0, "a"⟩, [], false, 0⟩] ⟨none⟩ ⟨some 0⟩
      = ([⟨some ⟨0, "a"⟩, [], false, 0⟩, ⟨some ⟨0, "a"⟩, [], false, 0⟩],
         ⟨some 1⟩, true)
    ∧ Tattler.String
        (Tattler.Import [⟨some ⟨0, "a"⟩, [], false, 0⟩] ⟨none⟩ ⟨some 0⟩).1
        (Tattler.Import [⟨some ⟨0, "a"⟩, [], false, 0⟩] ⟨none⟩ ⟨some 0⟩).2.1
      = Tattler.String
        (Tattler.Import [⟨some ⟨0, "a"⟩, [], false, 0⟩] ⟨none⟩ ⟨some 0⟩).1
        ⟨some 0⟩ := by
  have := (C5_import [⟨some ⟨0, "a"⟩, [], false, 0⟩] ⟨none⟩ ⟨some 0⟩ 0
      ⟨some ⟨0, "a"⟩, [], false, 0⟩ rfl rfl).1 rfl
  exact ⟨this.1, this.2.2⟩

/-- C6: after b.Import(a) copies the Detail of a Latched a into a Clean b,
offering a new error to a (Latch or Latchf) or logging a never changes the
heap cell b points at, so b's String is unchanged; Reset only clears the
pointer and touches no tale.  The imported Detail is an independent copy,
never shared. -/
theorem C6_import_independent (h : Heap) (a b : Tattler) (pa : Nat)
    (ta : tale) (hpa : a.talep = some pa) (hga : heapGet h pa = some ta)
    (hb : b.talep = none) :
    Tattler.Import h b a = (h ++ [ta], { talep := some h.length }, true)
    ∧ ∀ (cf : Nat) (stk : List Frame) (e ne2 : GoError) (s : String),
        Tattler.String (Tattler.Latch cf stk (h ++ [ta]) a (some e)).1
            { talep := some h.length }
          = Tattler.String (h ++ [ta]) { talep := some h.length }
        ∧ Tattler.String (Tattler.Latchf cf stk (h ++ [ta]) a ne2).1
            { talep := some h.length }
          = Tattler.String (h ++ [ta]) { talep := some h.length }
        ∧ Tattler.String (Tattler.Logf (h ++ [ta]) a s).1
            { talep := some h.length }
          = Tattler.String (h ++ [ta]) { talep := some h.length }
        ∧ Tattler.Reset a = { talep := none } := by
  have himp : Tattler.Import h b a
      = (h ++ [ta], { talep := some h.length }, true) := by
    simp [Tattler.Import, hpa, hb, hga]
  have hlt : pa < h.length := heapGet_some_lt hga
  have hne : pa ≠ h.length := Nat.ne_of_lt hlt
  have hga1 : heapGet (h ++ [ta]) pa = some ta := heapGet_append_left hga _
  refine ⟨himp, fun cf stk e ne2 s => ⟨?_, ?_, ?_, rfl⟩⟩
  · exact string_congr (latch_preserves_other_cell hpa hga1 hne cf stk (some e))
  · exact string_congr (latch_preserves_other_cell hpa hga1 hne cf stk (some ne2))
  · exact string_congr (logf_preserves_other_cell hpa hga1 hne s)

/-- Witness for C6 at a concrete pair of Holders. -/
theorem C6_import_independent_witness :
    Tattler.Import [⟨some ⟨0, "a"⟩, [], false, 0⟩] ⟨none⟩ ⟨some 0⟩
      = ([⟨some ⟨0, "a"⟩, [], false, 0⟩] ++ [⟨some ⟨0, "a"⟩, [], false, 0⟩],
         ⟨some 1⟩, true)
    ∧ Tattler.String
        (Tattler.Latch 3 []
          ([⟨some ⟨0, "a"⟩, [], false, 0⟩] ++ [⟨some ⟨0, "a"⟩, [], false, 0⟩])
          ⟨some 0⟩ (some ⟨1, "b"⟩)).1 ⟨some 1⟩
      = Tattler.String
          ([⟨some ⟨0, "a"⟩, [], false, 0⟩] ++ [⟨some ⟨0, "a"⟩, [], false, 0⟩])
          ⟨some 1⟩
    ∧ Tattler.String
        (Tattler.Logf
          ([⟨some ⟨0, "a"⟩, [], false, 0⟩] ++ [⟨some ⟨0, "a"⟩, [], false, 0⟩])
          ⟨some 0⟩ "pfx: ").1 ⟨some 1⟩
      = Tattler.String
          ([⟨some ⟨0, "a"⟩, [], false, 0⟩] ++ [⟨some ⟨0, "a"⟩, [], false, 0⟩])
          ⟨some 1⟩ := by
  have := C6_import_independent [⟨some ⟨0, "a"⟩, [], false, 0⟩] ⟨some 0⟩ ⟨none⟩ 0
      ⟨some ⟨0, "a"⟩, [], false, 0⟩ rfl rfl rfl
  have h2 := this.2 3 [] ⟨1, "b"⟩ ⟨2, "c"⟩ "pfx: "
  exact ⟨this.1, h2.1, h2.2.2.1⟩

/-- A Logf that emits nothing leaves the heap unchanged. -/
theorem logf_none_heap {h : Heap} {tat : Tattler} {s : Str}
    (hn : (Tattler.Logf h tat s).2 = none) : (Tattler.Logf h tat s).1 = h := by
  cases hp : tat.talep with
  | none => simp [Tattler.Logf, hp]
  | some p =>
    cases hg : heapGet h p with
    | none => simp [Tattler.Logf, hp, hg]
    | some t =>
      cases hl : t.logged with
      | true => simp [Tattler.Logf, hp, hg, hl]
      | false =>
        exfalso
        simp [Tattler.Logf, Tattler.fullLogf, hp, hg, hl] at hn

/-- After a Logf that emitted a line, every further Logf of the same
Tattler is a no-op. -/
theorem logf_emit_then_noop {h : Heap} {tat : Tattler} {s : Str} {out : Str}
    (he : (Tattler.Logf h tat s).2 = some out) :
    ∀ s2, Tattler.Logf (Tattler.Logf h tat s).1 tat s2
      = ((Tattler.Logf h tat s).1, none) := by
  cases hp : tat.talep with
  | none => simp [Tattler.Logf, hp] at he
  | some p =>
    cases hg : heapGet h p with
    | none => simp [Tattler.Logf, hp, hg] at he
    | some t =>
      cases hl : t.logged with
      | true => simp [Tattler.Logf, hp, hg, hl] at he
      | false =>
        have hr : (Tattler.Logf h tat s).1 = heapSet h p { t with logged := true } := by
          simp [Tattler.Logf, Tattler.fullLogf, hp, hg, hl]
        intro s2
        rw [hr]
        have hg2 : heapGet (heapSet h p { t with logged := true }) p
            = some { t with logged := true } := heapGet_heapSet_self hg _
        simp [Tattler.Logf, hp, hg2]

/-- When every single Logf is a no-op, a whole sequence emits nothing. -/
theorem runLogs_noop {h : Heap} {tat : Tattler}
    (hno : ∀ s, Tattler.Logf h tat s = (h, none)) :
    ∀ ss, runLogs h tat ss = (h, []) := by
  intro ss
  induction ss with
  | nil => rfl
  | cons s ss ih => simp [runLogs, hno s, ih]

/-- Over any sequence of Logf calls, at most one line is emitted. -/
theorem runLogs_len_le_one : ∀ (ss : List Str) (h : Heap) (tat : Tattler),
    (runLogs h tat ss).2.length ≤ 1 := by
  intro ss
  induction ss with
  | nil => intro h tat; simp [runLogs]
  | cons s ss ih =>
    intro h tat
    cases hr : (Tattler.Logf h tat s).2 with
    | none =>
      have h1 : (Tattler.Logf h tat s).1 = h := logf_none_heap hr
      simpa [runLogs, hr, h1] using ih h tat
    | some out =>
      have hruns : runLogs (Tattler.Logf h tat s).1 tat ss
          = ((Tattler.Logf h tat s).1, []) :=
        runLogs_noop (logf_emit_then_noop hr) ss
      simp [runLogs, hr, hruns]

/-- C7: over any sequence of Log/Logf calls without a Reset, at most one
call emits a log line; Logf on a Clean Holder or on an already-logged
Detail emits nothing and changes nothing; the one emitting call is the one
that finds logged false, and it sets logged true. -/
theorem C7_log_once (h : Heap) (tat : Tattler) (ss : List String) :
    (runLogs h tat ss).2.length ≤ 1
    ∧ (∀ (h2 : Heap) (tat2 : Tattler), Tattler.Log h2 tat2 = Tattler.Logf h2 tat2 "")
    ∧ (tat.talep = none → ∀ s, Tattler.Logf h tat s = (h, none))
    ∧ (∀ p t, tat.talep = some p → heapGet h p = some t → t.logged = true →
        ∀ s, Tattler.Logf h tat s = (h, none))
    ∧ (∀ p t, tat.talep = some p → heapGet h p = some t → t.logged = false →
        ∀ s, Tattler.Logf h tat s
          = (heapSet h p { t with logged := true },
             some (s ++ Tattler.String h tat))) := by
  refine ⟨runLogs_len_le_one ss h tat, fun h2 tat2 => rfl, ?_, ?_, ?_⟩
  · intro hc s
    simp [Tattler.Logf, hc]
  · intro p t hp hg hl s
    simp [Tattler.Logf, hp, hg, hl]
  · intro p t hp hg hl s
    simp [Tattler.Logf, Tattler.fullLogf, hp, hg, hl]

/-- Witness for C7: a latched-unlogged Holder logged twice emits once; an
already-logged and a Clean Holder are no-ops. -/
theorem C7_log_once_witness :
    (runLogs [⟨some ⟨0, "x"⟩, [], false, 0⟩] ⟨some 0⟩ ["a: ", "b: "]).2.length ≤ 1
    ∧ Tattler.Logf [⟨some ⟨0, "x"⟩, [], true, 0⟩] ⟨some 0⟩ "c: "
        = ([⟨some ⟨0, "x"⟩, [], true, 0⟩], none)
    ∧ Tattler.Logf [] ⟨none⟩ "d: " = ([], none) := by
  refine ⟨(C7_log_once [⟨some ⟨0, "x"⟩, [], false, 0⟩] ⟨some 0⟩ ["a: ", "b: "]).1,
    ?_, ?_⟩
  · exact (C7_log_once [⟨some ⟨0, "x"⟩, [], true, 0⟩] ⟨some 0⟩ []).2.2.2.1 0
      ⟨some ⟨0, "x"⟩, [], true, 0⟩ rfl rfl rfl "c: "
  · exact (C7_log_once [] ⟨none⟩ []).2.2.1 rfl "d: "

/-- Concatenation of a list of rendered lines. -/
def linesConcat : List String → String
  | [] => ""
  | s :: ss => s ++ linesConcat ss

/-- The Go Fprintf loop over the remaining frames, expressed as a foldl,
equals the initial builder contents followed by the concatenated lines. -/
theorem foldl_append_lines (g : Frame → String) :
    ∀ (fs : List Frame) (s0 : String),
      fs.foldl (fun acc f => acc ++ g f) s0 = s0 ++ linesConcat (fs.map g) := by
  intro fs
  induction fs with
  | nil => intro s0; simp [linesConcat]
  | cons f fs ih =>
    intro s0
    simp only [List.foldl, List.map, linesConcat]
    rw [ih (s0 ++ g f), String.append_assoc]

/-- The String() rendering exactly as the specification states it: the
latched error message and a newline; a Latched-at line (base filename,
line, function) for the first captured frame; a Called-From line per
remaining frame in stack order; and, exactly when missed is nonzero, a
final post-latch-errors line. -/
def specStringRender (err : GoError) (frames : List Frame) (missed : Nat) :
    String :=
  err.msg ++ "\n"
    ++ (match frames with
        | [] => ""
        | f0 :: rest =>
          (" Latched at:  " ++ baseName f0.file ++ ":" ++ toString f0.line
              ++ " in " ++ f0.function ++ "\n")
            ++ linesConcat (rest.map fun f =>
                " Called From: " ++ baseName f.file ++ ":" ++ toString f.line
                  ++ " in " ++ f.function ++ "\n"))
    ++ (if missed ≠ 0 then " " ++ toString missed ++ " post-latch errors\n"
        else "")

/-- C8: String() of a Clean Holder is empty; String() of a Latched Holder
renders exactly the spec format. -/
theorem C8_string_rendering (h : Heap) (tat : Tattler) (p : Nat) (t : tale)
    (err : GoError) (hp : tat.talep = some p) (hg : heapGet h p = some t)
    (he : t.latched = some err) :
    (∀ h2 : Heap, Tattler.String h2 { talep := none } = "")
    ∧ Tattler.String h tat = specStringRender err t.frames t.missed := by
  refine ⟨fun h2 => rfl, ?_⟩
  simp only [Tattler.String, hp, hg, he]
  cases hf : t.frames with
  | nil =>
    by_cases hm : t.missed = 0
    · simp [specStringRender, linesConcat, hm, String.append_empty,
        String.append_assoc]
    · apply String.ext
      simp [specStringRender, linesConcat, hm, String.data_append]
  | cons f0 rest =>
    simp only [specStringRender, frameLine, foldl_append_lines]
    by_cases hm : t.missed = 0 <;>
      simp [hm, String.append_empty, String.append_assoc]

/-- Witness for C8 at a concrete Latched Holder with two frames and a
nonzero missed count. -/
theorem C8_string_rendering_witness :
    Tattler.String
      [⟨some ⟨0, "boom"⟩, [⟨"d/f.go", 5, "main.f"⟩, ⟨"d/g.go", 9, "main.g"⟩],
        false, 3⟩] ⟨some 0⟩
      = specStringRender ⟨0, "boom"⟩
          [⟨"d/f.go", 5, "main.f"⟩, ⟨"d/g.go", 9, "main.g"⟩] 3 :=
  (C8_string_rendering
    [⟨some ⟨0, "boom"⟩, [⟨"d/f.go", 5, "main.f"⟩, ⟨"d/g.go", 9, "main.g"⟩],
      false, 3⟩] ⟨some 0⟩ 0
    ⟨some ⟨0, "boom"⟩, [⟨"d/f.go", 5, "main.f"⟩, ⟨"d/g.go", 9, "main.g"⟩],
      false, 3⟩ ⟨0, "boom"⟩ rfl rfl rfl).2

/-- C9: SetFrames clamps the requested frame-capture count into [0,100]
(any request above 100 is stored as 100); a latch performed while the
count is 0 still records the error but captures no frames, so String()
renders only the message line and omits the Latched-at block. -/
theorem C9_setframes_clamp (f : Nat) (stk : List Frame) (h : Heap)
    (err : GoError) :
    SetFrames f ≤ 100
    ∧ (f ≤ 100 → SetFrames f = f)
    ∧ (100 < f → SetFrames f = 100)
    ∧ Tattler.Latch 0 stk h cleanTattler (some err)
        = (h ++ [{ latched := some err, frames := []
                   logged := false, missed := 0 }],
           { talep := some h.length }, true)
    ∧ Tattler.String
        (h ++ [{ latched := some err, frames := []
                 logged := false, missed := 0 }])
        { talep := some h.length }
      = err.msg ++ "\n" := by
  refine ⟨?_, ?_, ?_, ?_, ?_⟩
  · unfold SetFrames; split <;> omega
  · intro hf; unfold SetFrames; split <;> omega
  · intro hf; unfold SetFrames; split <;> omega
  · exact latch_clean_some 0 stk h cleanTattler err rfl
  · simp [Tattler.String, heapGet_append_length]

/-- Witness for C9: a request of 10000 clamps to 100, and a zero-count
latch renders only the message. -/
theorem C9_setframes_clamp_witness :
    SetFrames 10000 ≤ 100
    ∧ (100 < 10000 → SetFrames 10000 = 100)
    ∧ Tattler.String
        ([] ++ [{ latched := some ⟨0, "boom"⟩, frames := []
                  logged := false, missed := 0 }])
        { talep := some 0 }
      = "boom" ++ "\n" := by
  have := C9_setframes_clamp 10000 [] [] ⟨0, "boom"⟩
  exact ⟨this.1, this.2.2.1, this.2.2.2.2⟩

/-- The reachable-state invariant of C10: a Latched Tattler points at a
live tale whose latched error is non-null. -/
def TatInv (h : Heap) (tat : Tattler) : Prop :=
  ∀ p, tat.talep = some p → ∃ t, heapGet h p = some t ∧ t.latched ≠ none

/-- fullLatch preserves the invariant. -/
theorem inv_fullLatch {h : Heap} {tat : Tattler} (hInv : TatInv h tat)
    (cf : Nat) (stk : List Frame) (e : Option GoError) :
    TatInv (Tattler.fullLatch cf stk h tat e).1
      (Tattler.fullLatch cf stk h tat e).2.1 := by
  cases e with
  | none => exact hInv
  | some e2 =>
    cases hp : tat.talep with
    | none =>
      have hr : Tattler.fullLatch cf stk h tat (some e2)
          = (h ++ [{ latched := some e2, frames := captureFrames cf stk
                     logged := false, missed := 0 }],
             { talep := some h.length }, true) := by
        simp [Tattler.fullLatch, hp]
      rw [hr]
      intro p hp2
      have hpl : h.length = p := by simpa using hp2
      subst hpl
      exact ⟨_, heapGet_append_length h _, by simp⟩
    | some p0 =>
      obtain ⟨t0, hg0, hl0⟩ := hInv p0 hp
      by_cases hc : some e2 ≠ t0.latched
      · have hr : Tattler.fullLatch cf stk h tat (some e2)
            = (heapSet h p0 { t0 with missed := t0.missed + 1 }, tat, true) := by
          simp only [Tattler.fullLatch, hp, hg0, if_pos hc]
        rw [hr]
        intro p hp2
        rw [hp] at hp2
        have hpl : p0 = p := by simpa using hp2
        subst hpl
        exact ⟨_, heapGet_heapSet_self hg0 _, by simpa using hl0⟩
      · have hr : Tattler.fullLatch cf stk h tat (some e2) = (h, tat, true) := by
          simp only [Tattler.fullLatch, hp, hg0, if_neg hc]
        rw [hr]
        exact hInv

/-- C10: the invariant holds for the Clean state and is preserved by
Latch, Latchf, Import, Reset, Log and Logf; consequently Le() returns a
non-null error exactly when Led() is true, and the String() guard branch
for a tale with a null latched error is unreachable. -/
theorem C10_invariant (h : Heap) (tat itp : Tattler)
    (hTat : TatInv h tat) (hItp : TatInv h itp) :
    TatInv h cleanTattler
    ∧ (∀ cf stk e, TatInv (Tattler.Latch cf stk h tat e).1
        (Tattler.Latch cf stk h tat e).2.1)
    ∧ (∀ cf stk ne2, TatInv (Tattler.Latchf cf stk h tat ne2).1
        (Tattler.Latchf cf stk h tat ne2).2.1)
    ∧ TatInv (Tattler.Import h tat itp).1 (Tattler.Import h tat itp).2.1
    ∧ TatInv h (Tattler.Reset tat)
    ∧ (∀ s, TatInv (Tattler.Logf h tat s).1 tat)
    ∧ TatInv (Tattler.Log h tat).1 tat
    ∧ ((Tattler.Le h tat ≠ none) ↔ Tattler.Led tat = true)
    ∧ (∀ p t, tat.talep = some p → heapGet h p = some t →
        t.latched ≠ none) := by
  have hlogf : ∀ s, TatInv (Tattler.Logf h tat s).1 tat := by
    intro s
    cases hp : tat.talep with
    | none =>
      have hr : Tattler.Logf h tat s = (h, none) := by simp [Tattler.Logf, hp]
      rw [hr]
      exact hTat
    | some p0 =>
      obtain ⟨t0, hg0, hl0⟩ := hTat p0 hp
      cases hl : t0.logged with
      | true =>
        have hr : Tattler.Logf h tat s = (h, none) := by
          simp [Tattler.Logf, hp, hg0, hl]
        rw [hr]
        exact hTat
      | false =>
        have hr : (Tattler.Logf h tat s).1
            = heapSet h p0 { t0 with logged := true } := by
          simp [Tattler.Logf, Tattler.fullLogf, hp, hg0, hl]
        rw [hr]
        intro p hp2
        rw [hp] at hp2
        have hpl : p0 = p := by simpa using hp2
        subst hpl
        exact ⟨_, heapGet_heapSet_self hg0 _, by simpa using hl0⟩
  refine ⟨?_, ?_, ?_, ?_, ?_, hlogf, hlogf "", ?_, ?_⟩
  · intro p hp
    exact absurd hp (by simp [cleanTattler])
  · intro cf stk e
    cases e with
    | none => exact hTat
    | some e2 => exact inv_fullLatch hTat cf stk (some e2)
  · intro cf stk ne2
    exact inv_fullLatch hTat cf stk (some ne2)
  · cases hit : itp.talep with
    | none =>
      have hr : Tattler.Import h tat itp = (h, tat, tat.talep.isSome) := by
        simp [Tattler.Import, hit]
      rw [hr]
      exact hTat
    | some q =>
      cases htt : tat.talep with
      | some p0 =>
        have hr : Tattler.Import h tat itp = (h, tat, tat.talep.isSome) := by
          simp [Tattler.Import, hit, htt]
        rw [hr]
        exact hTat
      | none =>
        obtain ⟨it, hgq, hlq⟩ := hItp q hit
        have hr : Tattler.Import h tat itp
            = (h ++ [it], { talep := some h.length }, true) := by
          simp [Tattler.Import, hit, htt, hgq]
        rw [hr]
        intro p hp2
        have hpl : h.length = p := by simpa using hp2
        subst hpl
        exact ⟨it, heapGet_append_length h it, hlq⟩
  · intro p hp
    exact absurd hp (by simp [Tattler.Reset])
  · cases hp : tat.talep with
    | none => simp [Tattler.Le, Tattler.Led, hp]
    | some p0 =>
      obtain ⟨t0, hg0, hl0⟩ := hTat p0 hp
      simp [Tattler.Le, Tattler.Led, hp, hg0, hl0]
  · intro p t hp2 hg2
    obtain ⟨t3, hg3, hl3⟩ := hTat p hp2
    rw [hg2] at hg3
    injection hg3 with heq
    rw [heq]
    exact hl3

/-- Witness for C10 at a concrete latched Holder and a Clean other. -/
theorem C10_invariant_witness :
    (Tattler.Le [⟨some ⟨0, "a"⟩, [], false, 0⟩] ⟨some 0⟩ ≠ none)
      ↔ Tattler.Led ⟨some 0⟩ = true := by
  have hTat : TatInv [⟨some ⟨0, "a"⟩, [], false, 0⟩] ⟨some 0⟩ := by
    intro p hp
    have hp0 : (0 : Nat) = p := by simpa using hp
    subst hp0
    exact ⟨⟨some ⟨0, "a"⟩, [], false, 0⟩, rfl, by simp⟩
  have hItp : TatInv [⟨some ⟨0, "a"⟩, [], false, 0⟩] ⟨none⟩ := by
    intro p hp
    exact Option.noConfusion hp
  exact (C10_invariant [⟨some ⟨0, "a"⟩, [], false, 0⟩] ⟨some 0⟩ ⟨none⟩
    hTat hItp).2.2.2.2.2.2.2.1
